/-
Verification of the core of the vincenty-yew repository (src/vincenty.rs):
coordinate parsing (FromStr for GeoCoordinate) and the Vincenty inverse
distance computation (distance / approximate / evaluate / round).

Embedding conventions:
* f64 values are modelled as real numbers; f64 arithmetic is modelled by
  exact real arithmetic (mul_add fuses to a*b+c, powi to ^).  Claims that
  depend on bit-exact IEEE-754 results cannot be settled in this embedding.
* The string-to-number parser models Rust's f64 FromStr grammar
  (sign, digits, optional fraction, optional e/E exponent) with exact
  rational values; the inf/nan forms are omitted since they have no
  rational value and no claim depends on them.
* Rust panics (expect/unwrap) are modelled by an explicit `panicked`
  constructor; the iteration loop `for _ in 0..MAX_ITERATIONS` is modelled
  by structural recursion on a fuel argument starting at MAX_ITERATIONS.
-/
import Mathlib

namespace Vincenty

/-! ### Coordinate parsing (vincenty.rs, lines 17-28)

`from_str` does `s.split_once(",").expect("Incorrect format!")`, then
`src.trim().parse().unwrap()` and `dst.trim().parse().unwrap()`. -/

/-- Model of Rust `str::split_once(",")`: split at the first comma,
returning the part before and the part after it. -/
def split_once : List Char → Option (List Char × List Char)
  | [] => none
  | c :: cs =>
    if c = ',' then some ([], cs)
    else (split_once cs).map fun p => (c :: p.1, p.2)

/-- Model of Rust `str::trim`: drop leading and trailing whitespace. -/
def trim (l : List Char) : List Char :=
  ((l.dropWhile Char.isWhitespace).reverse.dropWhile Char.isWhitespace).reverse

/-- Value of a digit string, most significant first. -/
def digitsToNat (l : List Char) : ℕ :=
  l.foldl (fun a c => 10 * a + (c.toNat - 48)) 0

/-- Value of a fraction digit string (the digits after the decimal point). -/
def fracValue (l : List Char) : ℚ :=
  l.foldr (fun c a => (a + ((c.toNat : ℚ) - 48)) / 10) 0

/-- Exponent part of the f64 grammar: optional sign, then digits. -/
def parse_exp (l : List Char) : Option ℤ :=
  let p : ℤ × List Char :=
    match l with
    | '+' :: r => (1, r)
    | '-' :: r => (-1, r)
    | _ => (1, l)
  if !p.2.isEmpty && p.2.all Char.isDigit then some (p.1 * digitsToNat p.2) else none

/-- Model of Rust `str::parse::<f64>` (the finite-number grammar):
optional sign, then either digits with an optional fraction, or a bare
fraction, with an optional e/E exponent; the whole string must be consumed.
The parsed value is kept as an exact rational. -/
def parse_f64 (l : List Char) : Option ℚ :=
  let p : ℚ × List Char :=
    match l with
    | '+' :: r => (1, r)
    | '-' :: r => (-1, r)
    | _ => (1, l)
  let ip := p.2.takeWhile Char.isDigit
  let rest := p.2.dropWhile Char.isDigit
  match rest with
  | [] => if ip.isEmpty then none else some (p.1 * digitsToNat ip)
  | '.' :: r =>
    let fp := r.takeWhile Char.isDigit
    let rest2 := r.dropWhile Char.isDigit
    if ip.isEmpty && fp.isEmpty then none
    else
      match rest2 with
      | [] => some (p.1 * ((digitsToNat ip : ℚ) + fracValue fp))
      | 'e' :: r2 => (parse_exp r2).map fun ex => p.1 * ((digitsToNat ip : ℚ) + fracValue fp) * (10 : ℚ) ^ ex
      | 'E' :: r2 => (parse_exp r2).map fun ex => p.1 * ((digitsToNat ip : ℚ) + fracValue fp) * (10 : ℚ) ^ ex
      | _ => none
  | 'e' :: r2 =>
    if ip.isEmpty then none else (parse_exp r2).map fun ex => p.1 * (digitsToNat ip : ℚ) * (10 : ℚ) ^ ex
  | 'E' :: r2 =>
    if ip.isEmpty then none else (parse_exp r2).map fun ex => p.1 * (digitsToNat ip : ℚ) * (10 : ℚ) ^ ex
  | _ => none

/-- Outcome of GeoCoordinate::from_str.  The Rust impl has
`type Err = std::string::ParseError` (an alias of Infallible), so it can
never return Err: on malformed input it panics via expect/unwrap.  The
`panicked` constructor records exactly those panics. -/
inductive ParseOutcome where
  | ok (lat lng : ℚ)
  | panicked
  deriving DecidableEq

/-- Model of `GeoCoordinate::from_str` (vincenty.rs lines 20-27):
split at the first comma (panicking when there is none), trim both halves,
parse each half as an f64 (panicking when parsing fails), the first number
becoming `lat` and the second `lng`. -/
def from_str (s : String) : ParseOutcome :=
  match split_once s.data with
  | none => ParseOutcome.panicked
  | some (a, b) =>
    match parse_f64 (trim a), parse_f64 (trim b) with
    | some lat, some lng => ParseOutcome.ok lat lng
    | _, _ => ParseOutcome.panicked

/-! ### Ellipsoid constants (vincenty.rs, lines 4-9) -/

noncomputable def RADIUS_AT_EQUATOR : ℝ := 6378137
noncomputable def FLATTENING_ELIPSOID : ℝ := 1 / 298.257223563
noncomputable def RADIUS_AT_POLES : ℝ := (1 - FLATTENING_ELIPSOID) * RADIUS_AT_EQUATOR
def MAX_ITERATIONS : ℕ := 200
noncomputable def CONVERGENCE_THRESHOLD : ℝ := 0.000000000001
def PRECISION : ℤ := 6

/-- The GeoCoordinate value type (lat/lng in degrees, f64 modelled as ℝ). -/
structure GeoCoordinate where
  lat : ℝ
  lng : ℝ

/-- Model of f64::to_radians. -/
noncomputable def toRadians (x : ℝ) : ℝ := x * (Real.pi / 180)

/-- Model of f64::atan2 (libm convention, `atan2 y x`). -/
noncomputable def atan2 (y x : ℝ) : ℝ :=
  if 0 < x then Real.arctan (y / x)
  else if x < 0 then
    (if 0 ≤ y then Real.arctan (y / x) + Real.pi else Real.arctan (y / x) - Real.pi)
  else
    (if 0 < y then Real.pi / 2 else if y < 0 then -(Real.pi / 2) else 0)

/-! ### One iteration of the solver loop (vincenty.rs, lines 59-106)

Each let-binding of the loop body becomes a function of the loop-invariant
parameters (sin_u1, cos_u1, sin_u2, cos_u2) and the current lambda. -/

/-- `sin_sigma` of an iteration (line 61). -/
noncomputable def sinSigmaOf (s1 c1 s2 c2 lam : ℝ) : ℝ :=
  Real.sqrt ((c2 * Real.sin lam) ^ 2 + (c1 * s2 - s1 * c2 * Real.cos lam) ^ 2)

/-- `cos_sigma` of an iteration (line 70): sin_u1.mul_add(sin_u2, cos_u1*cos_u2*cos_lambda). -/
noncomputable def cosSigmaOf (s1 c1 s2 c2 lam : ℝ) : ℝ :=
  s1 * s2 + c1 * c2 * Real.cos lam

/-- `sigma` of an iteration (line 72). -/
noncomputable def sigmaOf (s1 c1 s2 c2 lam : ℝ) : ℝ :=
  atan2 (sinSigmaOf s1 c1 s2 c2 lam) (cosSigmaOf s1 c1 s2 c2 lam)

/-- `sin_alpha` of an iteration (line 73): division by sin_sigma. -/
noncomputable def sinAlphaOf (s1 c1 s2 c2 lam : ℝ) : ℝ :=
  c1 * c2 * Real.sin lam / sinSigmaOf s1 c1 s2 c2 lam

/-- `cos_sqalpha` of an iteration (line 74). -/
noncomputable def cosSqAlphaOf (s1 c1 s2 c2 lam : ℝ) : ℝ :=
  1 - sinAlphaOf s1 c1 s2 c2 lam ^ 2

/-- `cos2_sigma_m` of an iteration (lines 76-80): the division by
cos_sqalpha is guarded by the cos_sqalpha == 0 branch, which forces 0. -/
noncomputable def cos2SigmaMOf (s1 c1 s2 c2 lam : ℝ) : ℝ :=
  if cosSqAlphaOf s1 c1 s2 c2 lam = 0 then 0
  else cosSigmaOf s1 c1 s2 c2 lam - 2 * s1 * s2 / cosSqAlphaOf s1 c1 s2 c2 lam

/-- The coefficient `c` of an iteration, exactly as the source computes it
(lines 82-84): (FLATTENING_ELIPSOID / 16.0) * cos_sqalpha
* (4.0 + FLATTENING_ELIPSOID - 3.0 * cos_sqalpha). -/
noncomputable def cCoeff (csa : ℝ) : ℝ :=
  FLATTENING_ELIPSOID / 16 * csa * (4 + FLATTENING_ELIPSOID - 3 * csa)

/-- `new_lambda` of an iteration (lines 86-95), with all mul_add fused
operations written out as a*b + c. -/
noncomputable def newLambdaOf (initLambda s1 c1 s2 c2 lam : ℝ) : ℝ :=
  (1 - cCoeff (cosSqAlphaOf s1 c1 s2 c2 lam)) * FLATTENING_ELIPSOID * sinAlphaOf s1 c1 s2 c2 lam *
      (cCoeff (cosSqAlphaOf s1 c1 s2 c2 lam) * sinSigmaOf s1 c1 s2 c2 lam *
          (cCoeff (cosSqAlphaOf s1 c1 s2 c2 lam) * cosSigmaOf s1 c1 s2 c2 lam *
              (2 * cos2SigmaMOf s1 c1 s2 c2 lam ^ 2 - 1) +
            cos2SigmaMOf s1 c1 s2 c2 lam) +
        sigmaOf s1 c1 s2 c2 lam) +
    initLambda

/-- Model of `evaluate` (vincenty.rs lines 111-136): Vincenty's closed-form
series (u², A, B, delta_sigma), returning kilometers (meters / 1000). -/
noncomputable def evaluate (cos_sqalpha sin_sigma cos2_sigma_m cos_sigma sigma : ℝ) : ℝ :=
  let usq := cos_sqalpha * (RADIUS_AT_EQUATOR ^ 2 - RADIUS_AT_POLES ^ 2) / RADIUS_AT_POLES ^ 2
  let a := usq / 16384 * (usq * (usq * (320 - 175 * usq) + (-768)) + 4096) + 1
  let b := usq / 1024 * (usq * (usq * (74 - 47 * usq) + (-128)) + 256)
  let delta_sigma := b * sin_sigma *
    (b / 4 * (cos_sigma * (2 * cos2_sigma_m ^ 2 - 1) -
        b / 6 * cos2_sigma_m * (4 * sin_sigma ^ 2 - 3) * (4 * cos2_sigma_m ^ 2 - 3)) +
      cos2_sigma_m)
  RADIUS_AT_POLES * a * (sigma - delta_sigma) / 1000

/-- The same closed-form series stopping at meters, i.e. `evaluate` without
the final division by 1000 (used to state the refinement claim about the
returned kilometers). -/
noncomputable def evaluateMeters (cos_sqalpha sin_sigma cos2_sigma_m cos_sigma sigma : ℝ) : ℝ :=
  let usq := cos_sqalpha * (RADIUS_AT_EQUATOR ^ 2 - RADIUS_AT_POLES ^ 2) / RADIUS_AT_POLES ^ 2
  let a := usq / 16384 * (usq * (usq * (320 - 175 * usq) + (-768)) + 4096) + 1
  let b := usq / 1024 * (usq * (usq * (74 - 47 * usq) + (-128)) + 256)
  let delta_sigma := b * sin_sigma *
    (b / 4 * (cos_sigma * (2 * cos2_sigma_m ^ 2 - 1) -
        b / 6 * cos2_sigma_m * (4 * sin_sigma ^ 2 - 3) * (4 * cos2_sigma_m ^ 2 - 3)) +
      cos2_sigma_m)
  RADIUS_AT_POLES * a * (sigma - delta_sigma)

/-- Model of Rust f64::round: nearest integer, halves away from zero. -/
noncomputable def f64_round (x : ℝ) : ℝ :=
  if 0 ≤ x then (⌊x + 1 / 2⌋ : ℝ) else (⌈x - 1 / 2⌉ : ℝ)

/-- Model of f64::powi restricted to what the source uses. -/
noncomputable def powi (x : ℝ) (n : ℤ) : ℝ := x ^ n

/-- Model of `round` (vincenty.rs lines 138-141). -/
noncomputable def round (number : ℝ) (precision : ℤ) : ℝ :=
  f64_round (number * powi 10 precision) / powi 10 precision

/-- The solver loop of `approximate` (vincenty.rs lines 58-109), with the
remaining iteration budget made explicit as a fuel argument: fuel 0 is the
loop having exhausted all its iterations (return None). -/
noncomputable def approximateAux (initLambda s1 c1 s2 c2 : ℝ) : ℕ → ℝ → Option ℝ
  | 0, _ => none
  | n + 1, lam =>
    if sinSigmaOf s1 c1 s2 c2 lam = 0 then some 0
    else if |newLambdaOf initLambda s1 c1 s2 c2 lam - lam| < CONVERGENCE_THRESHOLD then
      some (round (evaluate (cosSqAlphaOf s1 c1 s2 c2 lam) (sinSigmaOf s1 c1 s2 c2 lam)
          (cos2SigmaMOf s1 c1 s2 c2 lam) (cosSigmaOf s1 c1 s2 c2 lam) (sigmaOf s1 c1 s2 c2 lam))
        PRECISION)
    else approximateAux initLambda s1 c1 s2 c2 n (newLambdaOf initLambda s1 c1 s2 c2 lam)

/-- Model of `approximate` (vincenty.rs lines 50-109): run the loop for at
most MAX_ITERATIONS iterations. -/
noncomputable def approximate (init_lambda lambda sin_u1 cos_u1 sin_u2 cos_u2 : ℝ) : Option ℝ :=
  approximateAux init_lambda sin_u1 cos_u1 sin_u2 cos_u2 MAX_ITERATIONS lambda

/-- The reduced latitude u = atan((1-f) * tan(radians(lat))) (lines 37-38). -/
noncomputable def reducedLatitude (lat : ℝ) : ℝ :=
  Real.arctan ((1 - FLATTENING_ELIPSOID) * Real.tan (toRadians lat))

/-- Model of `distance` (vincenty.rs lines 36-48). -/
noncomputable def distance (c1 c2 : GeoCoordinate) : Option ℝ :=
  approximate (toRadians (c2.lng - c1.lng)) (toRadians (c2.lng - c1.lng))
    (Real.sin (reducedLatitude c1.lat)) (Real.cos (reducedLatitude c1.lat))
    (Real.sin (reducedLatitude c2.lat)) (Real.cos (reducedLatitude c2.lat))

/-- A value that is either a Rust panic or a normal result. -/
inductive PanicOr (α : Type) where
  | panicked
  | value (a : α)

/-- Model of `calc_distance` (vincenty.rs lines 30-34): parse both strings
(each parse can panic) and run `distance`. -/
noncomputable def calc_distance (c1 c2 : String) : PanicOr (Option ℝ) :=
  match from_str c1, from_str c2 with
  | ParseOutcome.ok lat1 lng1, ParseOutcome.ok lat2 lng2 =>
    PanicOr.value (distance ⟨(lat1 : ℝ), (lng1 : ℝ)⟩ ⟨(lat2 : ℝ), (lng2 : ℝ)⟩)
  | _, _ => PanicOr.panicked

/-! ### Definitions following the spec's words (for refinement claims) -/

/-- Following the spec: `C = (f/16) * cosSqAlpha * (4 + f*(4 - 3*cosSqAlpha))`
(spec 4.2 step i).  To be compared with `cCoeff`, which is what the source
actually computes. -/
noncomputable def specCCoeff (csa : ℝ) : ℝ :=
  FLATTENING_ELIPSOID / 16 * csa * (4 + FLATTENING_ELIPSOID * (4 - 3 * csa))

/-- Following the spec: round-half-away-from-zero to the nearest integer
(the magnitude is rounded half-up and the sign restored). -/
noncomputable def roundHalfAwayFromZero (x : ℝ) : ℝ :=
  if 0 ≤ x then (⌊x + 1 / 2⌋ : ℝ) else -(⌊-x + 1 / 2⌋ : ℝ)

/-- Following the spec: rounding to 6 decimal places via
`round(x * 10^6) / 10^6` with round-half-away-from-zero. -/
noncomputable def specRound6 (x : ℝ) : ℝ :=
  roundHalfAwayFromZero (x * 10 ^ (6 : ℕ)) / 10 ^ (6 : ℕ)

/-! ### Concrete input strings used by the claims -/

def input_bad : String := "not,a,number"
def input_nocomma : String := "12"
def input_ws : String := "  1.0 , 2.0 "
def input_simple : String := "1,2"
def input_zero : String := "0,0"

/-! ### Helper lemmas -/

lemma approximateAux_zero (initL s1 c1 s2 c2 lam : ℝ) :
    approximateAux initL s1 c1 s2 c2 0 lam = none := rfl

lemma approximateAux_succ (initL s1 c1 s2 c2 : ℝ) (n : ℕ) (lam : ℝ) :
    approximateAux initL s1 c1 s2 c2 (n + 1) lam =
      if sinSigmaOf s1 c1 s2 c2 lam = 0 then some 0
      else if |newLambdaOf initL s1 c1 s2 c2 lam - lam| < CONVERGENCE_THRESHOLD then
        some (round (evaluate (cosSqAlphaOf s1 c1 s2 c2 lam) (sinSigmaOf s1 c1 s2 c2 lam)
            (cos2SigmaMOf s1 c1 s2 c2 lam) (cosSigmaOf s1 c1 s2 c2 lam) (sigmaOf s1 c1 s2 c2 lam))
          PRECISION)
      else approximateAux initL s1 c1 s2 c2 n (newLambdaOf initL s1 c1 s2 c2 lam) := rfl

lemma split_once_spec : ∀ s l r : List Char,
    split_once s = some (l, r) → s = l ++ ',' :: r ∧ ',' ∉ l := by
  intro s
  induction s with
  | nil => intro l r h; exact absurd h (by simp [split_once])
  | cons c cs ih =>
    intro l r h
    by_cases hc : c = ','
    · rw [split_once, if_pos hc] at h
      simp only [Option.some.injEq, Prod.mk.injEq] at h
      obtain ⟨hl, hr⟩ := h
      subst hl; subst hr; subst hc
      exact ⟨rfl, List.not_mem_nil _⟩
    · rw [split_once, if_neg hc] at h
      cases hsc : split_once cs with
      | none => rw [hsc] at h; simp at h
      | some p =>
        rw [hsc] at h
        simp only [Option.map_some', Option.some.injEq] at h
        obtain ⟨ha, hb⟩ := ih p.1 p.2 (by rw [hsc])
        injection h with h1 h2
        subst h1; subst h2
        constructor
        · rw [ha]; rfl
        · intro hmem
          rcases List.mem_cons.mp hmem with h1 | h2
          · exact hc h1.symm
          · exact hb h2

lemma split_once_isSome : ∀ s : List Char, ',' ∈ s → (split_once s).isSome = true := by
  intro s
  induction s with
  | nil => intro h; simp at h
  | cons c cs ih =>
    intro h
    by_cases hc : c = ','
    · rw [split_once, if_pos hc]; rfl
    · rw [split_once, if_neg hc]
      have : ',' ∈ cs := by
        rcases List.mem_cons.mp h with h1 | h2
        · exact absurd h1.symm hc
        · exact h2
      have := ih this
      cases hsc : split_once cs with
      | none => rw [hsc] at this; simp at this
      | some p => rfl

/-! ### Claims about parsing -/

/-- Claim C1 (code_bug evidence): on malformed input — a string with no
comma, or one whose half does not parse as a number — the source does NOT
return a ParseError: `split_once(...).expect(...)` and `parse().unwrap()`
panic.  `from_str` of "not,a,number" and of "12" is a panic, and
`calc_distance` panics rather than returning an Err value. -/
theorem from_str_panics_on_malformed :
    from_str input_bad = ParseOutcome.panicked ∧
      from_str input_nocomma = ParseOutcome.panicked ∧
      calc_distance input_bad input_zero = PanicOr.panicked := by
  refine ⟨by with_unfolding_all rfl, by with_unfolding_all rfl, ?_⟩
  unfold calc_distance
  rw [show from_str input_bad = ParseOutcome.panicked from by with_unfolding_all rfl,
    show from_str input_zero = ParseOutcome.ok 0 0 from by with_unfolding_all rfl]

/-- Claim C2 (code_bug evidence): the coefficient C computed by the source,
`(f/16) * cosSqAlpha * (4 + f - 3*cosSqAlpha)`, differs from the
spec's (and Vincenty's published) `(f/16) * cosSqAlpha * (4 + f*(4 - 3*cosSqAlpha))`;
at cosSqAlpha = 1 (reached e.g. for two points on one meridian) the two
values disagree. -/
theorem cCoeff_ne_specCCoeff : cCoeff 1 ≠ specCCoeff 1 := by
  unfold cCoeff specCCoeff FLATTENING_ELIPSOID
  norm_num

/-- Claim C9: for every input string containing a comma, from_str splits at
the first comma (the prefix contains no comma), trims both halves, parses
each half as a number, and the first number becomes lat and the second lng;
in particular parsing "  1.0 , 2.0 " gives lat = 1 and lng = 2. -/
theorem from_str_splits_on_first_comma :
    (∀ s : String, ',' ∈ s.data → (split_once s.data).isSome = true) ∧
      (∀ (s : String) (l r : List Char), split_once s.data = some (l, r) →
        s.data = l ++ ',' :: r ∧ ',' ∉ l ∧
          from_str s = (match parse_f64 (trim l), parse_f64 (trim r) with
            | some lat, some lng => ParseOutcome.ok lat lng
            | _, _ => ParseOutcome.panicked)) ∧
      from_str input_ws = ParseOutcome.ok 1 2 := by
  refine ⟨fun s h => split_once_isSome s.data h, fun s l r h => ?_, by with_unfolding_all rfl⟩
  obtain ⟨h1, h2⟩ := split_once_spec s.data l r h
  refine ⟨h1, h2, ?_⟩
  unfold from_str
  rw [h]

/-- Witness for C9 at the concrete string "1,2". -/
theorem from_str_splits_on_first_comma_witness :
    (',' ∈ input_simple.data) ∧ split_once input_simple.data = some (['1'], ['2']) ∧
      from_str input_simple = (match parse_f64 (trim ['1']), parse_f64 (trim ['2']) with
        | some lat, some lng => ParseOutcome.ok lat lng
        | _, _ => ParseOutcome.panicked) :=
  ⟨by decide, by decide,
    (from_str_splits_on_first_comma.2.1 input_simple ['1'] ['2'] (by decide)).2.2⟩

/-! ### Rounding lemmas and the degenerate / converged exits of the loop -/

lemma f64_round_eq_spec (x : ℝ) : f64_round x = roundHalfAwayFromZero x := by
  unfold f64_round roundHalfAwayFromZero
  by_cases h : 0 ≤ x
  · rw [if_pos h, if_pos h]
  · rw [if_neg h, if_neg h]
    rw [show x - 1 / 2 = -(-x + 1 / 2) by ring, Int.ceil_neg]
    push_cast
    ring

lemma round_PRECISION_eq (x : ℝ) : round x PRECISION = specRound6 x := by
  unfold round powi PRECISION specRound6
  rw [f64_round_eq_spec]
  norm_num

lemma evaluate_eq_meters (a b c d e : ℝ) :
    evaluate a b c d e = evaluateMeters a b c d e / 1000 := rfl

/-- Claim C4: in any iteration of the solver loop in which sin_sigma is
exactly 0, the loop returns Some 0.0 at once, without reaching the final
evaluation or rounding. -/
theorem sinSigma_zero_returns_zero (initL s1 c1 s2 c2 : ℝ) (n : ℕ) (lam : ℝ)
    (h : sinSigmaOf s1 c1 s2 c2 lam = 0) :
    approximateAux initL s1 c1 s2 c2 (n + 1) lam = some 0 := by
  rw [approximateAux_succ, if_pos h]

/-- Witness for C4 at a concrete state with sin_sigma = 0. -/
theorem sinSigma_zero_returns_zero_witness :
    sinSigmaOf 0 1 0 1 0 = 0 ∧ approximateAux 0 0 1 0 1 1 0 = some 0 := by
  have h : sinSigmaOf 0 1 0 1 0 = 0 := by simp [sinSigmaOf]
  exact ⟨h, sinSigma_zero_returns_zero 0 0 1 0 1 0 0 h⟩

/-- Claim C6: whenever the solver converges (sin_sigma nonzero and the
lambda update moves less than the threshold), the returned value is the
closed-form distance in meters, divided by 1000, rounded to 6 decimal
places by round-half-away-from-zero on the scaled value. -/
theorem converged_returns_rounded_km (initL s1 c1 s2 c2 : ℝ) (n : ℕ) (lam : ℝ)
    (hss : sinSigmaOf s1 c1 s2 c2 lam ≠ 0)
    (hcv : |newLambdaOf initL s1 c1 s2 c2 lam - lam| < CONVERGENCE_THRESHOLD) :
    approximateAux initL s1 c1 s2 c2 (n + 1) lam =
      some (specRound6 (evaluateMeters (cosSqAlphaOf s1 c1 s2 c2 lam) (sinSigmaOf s1 c1 s2 c2 lam)
        (cos2SigmaMOf s1 c1 s2 c2 lam) (cosSigmaOf s1 c1 s2 c2 lam)
        (sigmaOf s1 c1 s2 c2 lam) / 1000)) := by
  rw [approximateAux_succ, if_neg hss, if_pos hcv, evaluate_eq_meters, round_PRECISION_eq]

/-- Witness for C6 at a concrete state that converges in one step. -/
theorem converged_returns_rounded_km_witness :
    sinSigmaOf 0 1 1 0 0 ≠ 0 ∧
      |newLambdaOf 0 0 1 1 0 0 - 0| < CONVERGENCE_THRESHOLD ∧
      approximateAux 0 0 1 1 0 1 0 =
        some (specRound6 (evaluateMeters (cosSqAlphaOf 0 1 1 0 0) (sinSigmaOf 0 1 1 0 0)
          (cos2SigmaMOf 0 1 1 0 0) (cosSigmaOf 0 1 1 0 0) (sigmaOf 0 1 1 0 0) / 1000)) := by
  have hss : sinSigmaOf 0 1 1 0 0 ≠ 0 := by simp [sinSigmaOf]
  have hcv : |newLambdaOf 0 0 1 1 0 0 - 0| < CONVERGENCE_THRESHOLD := by
    simp [newLambdaOf, sinAlphaOf]
    norm_num [CONVERGENCE_THRESHOLD]
  exact ⟨hss, hcv, converged_returns_rounded_km 0 0 1 1 0 0 0 hss hcv⟩

/-! ### Identity: distance of a point to itself -/

/-- Claim C7: for every valid coordinate P (lat in [-90, 90], lng in
[-180, 180]), distance(P, P) = Some 0.0: with both points equal the very
first iteration finds sin_sigma = 0 and short-circuits. -/
theorem distance_self (P : GeoCoordinate)
    (h1 : -90 ≤ P.lat) (h2 : P.lat ≤ 90) (h3 : -180 ≤ P.lng) (h4 : P.lng ≤ 180) :
    distance P P = some 0 := by
  unfold distance approximate
  rw [show toRadians (P.lng - P.lng) = 0 by unfold toRadians; ring]
  have hss : sinSigmaOf (Real.sin (reducedLatitude P.lat)) (Real.cos (reducedLatitude P.lat))
      (Real.sin (reducedLatitude P.lat)) (Real.cos (reducedLatitude P.lat)) 0 = 0 := by
    unfold sinSigmaOf
    rw [Real.sin_zero, Real.cos_zero]
    rw [show (Real.cos (reducedLatitude P.lat) * 0) ^ 2 +
        (Real.cos (reducedLatitude P.lat) * Real.sin (reducedLatitude P.lat) -
          Real.sin (reducedLatitude P.lat) * Real.cos (reducedLatitude P.lat) * 1) ^ 2 = 0
      by ring]
    exact Real.sqrt_zero
  rw [show MAX_ITERATIONS = 199 + 1 from rfl, approximateAux_succ, if_pos hss]

/-- Witness for C7 at the origin. -/
theorem distance_self_witness :
    ((-90 : ℝ) ≤ 0 ∧ (0 : ℝ) ≤ 90 ∧ (-180 : ℝ) ≤ 0 ∧ (0 : ℝ) ≤ 180) ∧
      distance ⟨0, 0⟩ ⟨0, 0⟩ = some 0 :=
  ⟨by norm_num,
    distance_self ⟨0, 0⟩ (by norm_num) (by norm_num) (by norm_num) (by norm_num)⟩

/-! ### The iteration cap and the non-convergence result -/

/-- The sequence of lambda values the loop would traverse from a given
start, j applications of the lambda update. -/
noncomputable def lamSeq (initL s1 c1 s2 c2 lam : ℝ) : ℕ → ℝ
  | 0 => lam
  | j + 1 => newLambdaOf initL s1 c1 s2 c2 (lamSeq initL s1 c1 s2 c2 lam j)

lemma lamSeq_shift (initL s1 c1 s2 c2 lam : ℝ) : ∀ j : ℕ,
    lamSeq initL s1 c1 s2 c2 (newLambdaOf initL s1 c1 s2 c2 lam) j =
      lamSeq initL s1 c1 s2 c2 lam (j + 1) := by
  intro j
  induction j with
  | zero => rfl
  | succ j ih =>
    show newLambdaOf initL s1 c1 s2 c2 _ = _
    rw [ih]
    rfl

lemma approximateAux_none_iff (initL s1 c1 s2 c2 : ℝ) : ∀ (n : ℕ) (lam : ℝ),
    approximateAux initL s1 c1 s2 c2 n lam = none ↔
      ∀ j < n, sinSigmaOf s1 c1 s2 c2 (lamSeq initL s1 c1 s2 c2 lam j) ≠ 0 ∧
        ¬|newLambdaOf initL s1 c1 s2 c2 (lamSeq initL s1 c1 s2 c2 lam j) -
            lamSeq initL s1 c1 s2 c2 lam j| < CONVERGENCE_THRESHOLD := by
  intro n
  induction n with
  | zero => intro lam; simp [approximateAux_zero]
  | succ n ih =>
    intro lam
    rw [approximateAux_succ]
    by_cases hss : sinSigmaOf s1 c1 s2 c2 lam = 0
    · rw [if_pos hss]
      apply iff_of_false (by simp)
      intro hAll
      exact (hAll 0 (Nat.succ_pos n)).1 hss
    · rw [if_neg hss]
      by_cases hcv : |newLambdaOf initL s1 c1 s2 c2 lam - lam| < CONVERGENCE_THRESHOLD
      · rw [if_pos hcv]
        apply iff_of_false (by simp)
        intro hAll
        exact (hAll 0 (Nat.succ_pos n)).2 hcv
      · rw [if_neg hcv, ih (newLambdaOf initL s1 c1 s2 c2 lam)]
        constructor
        · intro hAll j hj
          cases j with
          | zero => exact ⟨hss, hcv⟩
          | succ j =>
            have h := hAll j (Nat.lt_of_succ_lt_succ hj)
            rwa [lamSeq_shift] at h
        · intro hAll j hj
          have h := hAll (j + 1) (Nat.succ_lt_succ hj)
          rwa [← lamSeq_shift] at h

/-- Claim C3: the solver runs the loop body at most MAX_ITERATIONS = 200
times (approximate is the loop with fuel MAX_ITERATIONS), and the loop
yields None exactly when no iteration within the fuel either hits the
sin_sigma = 0 shortcut or satisfies the convergence test
|newLambda - lambda| < 1e-12.  The embedding is a total function: no panic
is possible. -/
theorem approximate_iteration_cap (initL s1 c1 s2 c2 lam : ℝ) (n : ℕ) :
    (approximate initL lam s1 c1 s2 c2 =
        approximateAux initL s1 c1 s2 c2 MAX_ITERATIONS lam ∧ MAX_ITERATIONS = 200) ∧
      (approximateAux initL s1 c1 s2 c2 n lam = none ↔
        ∀ j < n, sinSigmaOf s1 c1 s2 c2 (lamSeq initL s1 c1 s2 c2 lam j) ≠ 0 ∧
          ¬|newLambdaOf initL s1 c1 s2 c2 (lamSeq initL s1 c1 s2 c2 lam j) -
              lamSeq initL s1 c1 s2 c2 lam j| < CONVERGENCE_THRESHOLD) :=
  ⟨⟨rfl, rfl⟩, approximateAux_none_iff initL s1 c1 s2 c2 n lam⟩

/-! ### Absence of division by zero inside the loop -/

/-- A computation that either produced a value or attempted a division by
zero. -/
inductive Checked (α : Type) where
  | ok (a : α)
  | divByZero

/-- Division instrumented to fail when the divisor is zero. -/
noncomputable def checked_div (a b : ℝ) : Checked ℝ :=
  if b = 0 then Checked.divByZero else Checked.ok (a / b)

/-- The solver loop with its two divisions instrumented: the division by
sin_sigma when computing sin_alpha (source line 73), and the division by
cos_sqalpha in the unguarded branch of cos2_sigma_m (source line 79).  All
other loop operations contain no division by a run-time value. -/
noncomputable def approximateAuxChecked (initLambda s1 c1 s2 c2 : ℝ) : ℕ → ℝ → Checked (Option ℝ)
  | 0, _ => Checked.ok none
  | n + 1, lam =>
    if sinSigmaOf s1 c1 s2 c2 lam = 0 then Checked.ok (some 0)
    else
      match checked_div (c1 * c2 * Real.sin lam) (sinSigmaOf s1 c1 s2 c2 lam) with
      | Checked.divByZero => Checked.divByZero
      | Checked.ok sin_alpha =>
        match (if 1 - sin_alpha ^ 2 = 0 then Checked.ok (0 : ℝ)
            else
              match checked_div (2 * s1 * s2) (1 - sin_alpha ^ 2) with
              | Checked.divByZero => Checked.divByZero
              | Checked.ok q => Checked.ok (cosSigmaOf s1 c1 s2 c2 lam - q)) with
        | Checked.divByZero => Checked.divByZero
        | Checked.ok cos2_sigma_m =>
          if |newLambdaOf initLambda s1 c1 s2 c2 lam - lam| < CONVERGENCE_THRESHOLD then
            Checked.ok (some (round (evaluate (1 - sin_alpha ^ 2) (sinSigmaOf s1 c1 s2 c2 lam)
                cos2_sigma_m (cosSigmaOf s1 c1 s2 c2 lam) (sigmaOf s1 c1 s2 c2 lam)) PRECISION))
          else approximateAuxChecked initLambda s1 c1 s2 c2 n (newLambdaOf initLambda s1 c1 s2 c2 lam)

/-- Claim C10: no iteration of the loop divides by zero: the division by
sin_sigma only happens after the sin_sigma == 0 early return did not fire,
and the division by cos_sqalpha only happens in the branch where
cos_sqalpha ≠ 0; hence the instrumented loop never reaches divByZero and
agrees with the plain loop. -/
theorem no_division_by_zero (initL s1 c1 s2 c2 : ℝ) : ∀ (n : ℕ) (lam : ℝ),
    approximateAuxChecked initL s1 c1 s2 c2 n lam =
      Checked.ok (approximateAux initL s1 c1 s2 c2 n lam) := by
  intro n
  induction n with
  | zero => intro lam; rfl
  | succ n ih =>
    intro lam
    rw [approximateAux_succ]
    show (if sinSigmaOf s1 c1 s2 c2 lam = 0 then Checked.ok (some 0) else _) = _
    by_cases hss : sinSigmaOf s1 c1 s2 c2 lam = 0
    · rw [if_pos hss, if_pos hss]
    · rw [if_neg hss, if_neg hss, checked_div, if_neg hss]
      have hsa : c1 * c2 * Real.sin lam / sinSigmaOf s1 c1 s2 c2 lam =
          sinAlphaOf s1 c1 s2 c2 lam := rfl
      rw [hsa]
      show (match (if cosSqAlphaOf s1 c1 s2 c2 lam = 0 then Checked.ok (0 : ℝ)
            else
              match checked_div (2 * s1 * s2) (cosSqAlphaOf s1 c1 s2 c2 lam) with
              | Checked.divByZero => Checked.divByZero
              | Checked.ok q => Checked.ok (cosSigmaOf s1 c1 s2 c2 lam - q)) with
        | Checked.divByZero => Checked.divByZero
        | Checked.ok cos2_sigma_m => _) = _
      by_cases hcsa : cosSqAlphaOf s1 c1 s2 c2 lam = 0
      · rw [if_pos hcsa]
        show (if |newLambdaOf initL s1 c1 s2 c2 lam - lam| < CONVERGENCE_THRESHOLD then _
            else _) = _
        have hm : (0 : ℝ) = cos2SigmaMOf s1 c1 s2 c2 lam := by
          rw [cos2SigmaMOf, if_pos hcsa]
        have hcs : 1 - sinAlphaOf s1 c1 s2 c2 lam ^ 2 = cosSqAlphaOf s1 c1 s2 c2 lam := rfl
        by_cases hcv : |newLambdaOf initL s1 c1 s2 c2 lam - lam| < CONVERGENCE_THRESHOLD
        · rw [if_pos hcv, if_pos hcv, ← hm, hcs]
        · rw [if_neg hcv, if_neg hcv]
          exact ih (newLambdaOf initL s1 c1 s2 c2 lam)
      · rw [if_neg hcsa, checked_div, if_neg hcsa]
        have hm : cosSigmaOf s1 c1 s2 c2 lam - 2 * s1 * s2 / cosSqAlphaOf s1 c1 s2 c2 lam =
            cos2SigmaMOf s1 c1 s2 c2 lam := by
          rw [cos2SigmaMOf, if_neg hcsa]
        have hcs : 1 - sinAlphaOf s1 c1 s2 c2 lam ^ 2 = cosSqAlphaOf s1 c1 s2 c2 lam := rfl
        dsimp only
        rw [hm, hcs]
        by_cases hcv : |newLambdaOf initL s1 c1 s2 c2 lam - lam| < CONVERGENCE_THRESHOLD
        · rw [if_pos hcv, if_pos hcv]
        · rw [if_neg hcv, if_neg hcv]
          exact ih (newLambdaOf initL s1 c1 s2 c2 lam)

/-! ### Symmetry: swapping the two coordinates

Swapping the endpoints swaps (sin_u1, cos_u1) with (sin_u2, cos_u2) and
negates the longitude difference; each iteration quantity is invariant (or
negated, for sin_alpha and lambda), using the Pythagorean identities of the
reduced latitudes. -/

lemma cosSigma_swap (s1 c1 s2 c2 lam : ℝ) :
    cosSigmaOf s2 c2 s1 c1 (-lam) = cosSigmaOf s1 c1 s2 c2 lam := by
  unfold cosSigmaOf
  rw [Real.cos_neg]
  ring

lemma sinSigma_swap (s1 c1 s2 c2 lam : ℝ)
    (h1 : s1 ^ 2 + c1 ^ 2 = 1) (h2 : s2 ^ 2 + c2 ^ 2 = 1) :
    sinSigmaOf s2 c2 s1 c1 (-lam) = sinSigmaOf s1 c1 s2 c2 lam := by
  unfold sinSigmaOf
  rw [Real.sin_neg, Real.cos_neg]
  congr 1
  have h3 : Real.sin lam ^ 2 + Real.cos lam ^ 2 = 1 := Real.sin_sq_add_cos_sq lam
  linear_combination (Real.sin lam) ^ 2 * c2 ^ 2 * h1 - (Real.sin lam) ^ 2 * c1 ^ 2 * h2 -
    (c2 ^ 2 * s1 ^ 2 - c1 ^ 2 * s2 ^ 2) * h3

lemma sigma_swap (s1 c1 s2 c2 lam : ℝ)
    (h1 : s1 ^ 2 + c1 ^ 2 = 1) (h2 : s2 ^ 2 + c2 ^ 2 = 1) :
    sigmaOf s2 c2 s1 c1 (-lam) = sigmaOf s1 c1 s2 c2 lam := by
  unfold sigmaOf
  rw [sinSigma_swap s1 c1 s2 c2 lam h1 h2, cosSigma_swap]

lemma sinAlpha_swap (s1 c1 s2 c2 lam : ℝ)
    (h1 : s1 ^ 2 + c1 ^ 2 = 1) (h2 : s2 ^ 2 + c2 ^ 2 = 1) :
    sinAlphaOf s2 c2 s1 c1 (-lam) = -sinAlphaOf s1 c1 s2 c2 lam := by
  unfold sinAlphaOf
  rw [Real.sin_neg, sinSigma_swap s1 c1 s2 c2 lam h1 h2]
  ring

lemma cosSqAlpha_swap (s1 c1 s2 c2 lam : ℝ)
    (h1 : s1 ^ 2 + c1 ^ 2 = 1) (h2 : s2 ^ 2 + c2 ^ 2 = 1) :
    cosSqAlphaOf s2 c2 s1 c1 (-lam) = cosSqAlphaOf s1 c1 s2 c2 lam := by
  unfold cosSqAlphaOf
  rw [sinAlpha_swap s1 c1 s2 c2 lam h1 h2]
  ring

lemma cos2SigmaM_swap (s1 c1 s2 c2 lam : ℝ)
    (h1 : s1 ^ 2 + c1 ^ 2 = 1) (h2 : s2 ^ 2 + c2 ^ 2 = 1) :
    cos2SigmaMOf s2 c2 s1 c1 (-lam) = cos2SigmaMOf s1 c1 s2 c2 lam := by
  unfold cos2SigmaMOf
  rw [cosSqAlpha_swap s1 c1 s2 c2 lam h1 h2, cosSigma_swap]
  split_ifs with h
  · rfl
  · ring

lemma newLambda_swap (initL s1 c1 s2 c2 lam : ℝ)
    (h1 : s1 ^ 2 + c1 ^ 2 = 1) (h2 : s2 ^ 2 + c2 ^ 2 = 1) :
    newLambdaOf (-initL) s2 c2 s1 c1 (-lam) = -newLambdaOf initL s1 c1 s2 c2 lam := by
  unfold newLambdaOf
  rw [cosSqAlpha_swap s1 c1 s2 c2 lam h1 h2, sinAlpha_swap s1 c1 s2 c2 lam h1 h2,
    sinSigma_swap s1 c1 s2 c2 lam h1 h2, cosSigma_swap, cos2SigmaM_swap s1 c1 s2 c2 lam h1 h2,
    sigma_swap s1 c1 s2 c2 lam h1 h2]
  ring

lemma approximateAux_swap (initL s1 c1 s2 c2 : ℝ)
    (h1 : s1 ^ 2 + c1 ^ 2 = 1) (h2 : s2 ^ 2 + c2 ^ 2 = 1) : ∀ (n : ℕ) (lam : ℝ),
    approximateAux (-initL) s2 c2 s1 c1 n (-lam) = approximateAux initL s1 c1 s2 c2 n lam := by
  intro n
  induction n with
  | zero => intro lam; rfl
  | succ n ih =>
    intro lam
    rw [approximateAux_succ, approximateAux_succ,
      sinSigma_swap s1 c1 s2 c2 lam h1 h2,
      newLambda_swap initL s1 c1 s2 c2 lam h1 h2,
      cosSqAlpha_swap s1 c1 s2 c2 lam h1 h2,
      cos2SigmaM_swap s1 c1 s2 c2 lam h1 h2,
      cosSigma_swap s1 c1 s2 c2 lam,
      sigma_swap s1 c1 s2 c2 lam h1 h2,
      show -newLambdaOf initL s1 c1 s2 c2 lam - -lam =
        -(newLambdaOf initL s1 c1 s2 c2 lam - lam) by ring,
      abs_neg]
    by_cases hss : sinSigmaOf s1 c1 s2 c2 lam = 0
    · rw [if_pos hss, if_pos hss]
    · rw [if_neg hss, if_neg hss]
      by_cases hcv : |newLambdaOf initL s1 c1 s2 c2 lam - lam| < CONVERGENCE_THRESHOLD
      · rw [if_pos hcv, if_pos hcv]
      · rw [if_neg hcv, if_neg hcv]
        exact ih (newLambdaOf initL s1 c1 s2 c2 lam)

/-- Claim C8: for all valid coordinates P and Q, distance(P, Q) and
distance(Q, P) return the same value (both None, or both the same Some). -/
theorem distance_symm (P Q : GeoCoordinate)
    (hP1 : -90 ≤ P.lat) (hP2 : P.lat ≤ 90) (hP3 : -180 ≤ P.lng) (hP4 : P.lng ≤ 180)
    (hQ1 : -90 ≤ Q.lat) (hQ2 : Q.lat ≤ 90) (hQ3 : -180 ≤ Q.lng) (hQ4 : Q.lng ≤ 180) :
    distance P Q = distance Q P := by
  unfold distance approximate
  have h1 : Real.sin (reducedLatitude P.lat) ^ 2 + Real.cos (reducedLatitude P.lat) ^ 2 = 1 :=
    Real.sin_sq_add_cos_sq _
  have h2 : Real.sin (reducedLatitude Q.lat) ^ 2 + Real.cos (reducedLatitude Q.lat) ^ 2 = 1 :=
    Real.sin_sq_add_cos_sq _
  rw [show toRadians (P.lng - Q.lng) = -toRadians (Q.lng - P.lng) by unfold toRadians; ring]
  exact (approximateAux_swap (toRadians (Q.lng - P.lng)) _ _ _ _ h1 h2 MAX_ITERATIONS
    (toRadians (Q.lng - P.lng))).symm

/-- Witness for C8 at two concrete valid coordinates. -/
theorem distance_symm_witness :
    ((-90 : ℝ) ≤ 0 ∧ (0 : ℝ) ≤ 90 ∧ (-180 : ℝ) ≤ 0 ∧ (0 : ℝ) ≤ 180 ∧
        (-90 : ℝ) ≤ 1 ∧ (1 : ℝ) ≤ 90 ∧ (-180 : ℝ) ≤ 1 ∧ (1 : ℝ) ≤ 180) ∧
      distance ⟨0, 0⟩ ⟨1, 1⟩ = distance ⟨1, 1⟩ ⟨0, 0⟩ :=
  ⟨by norm_num,
    distance_symm ⟨0, 0⟩ ⟨1, 1⟩ (by norm_num) (by norm_num) (by norm_num) (by norm_num)
      (by norm_num) (by norm_num) (by norm_num) (by norm_num)⟩

end Vincenty
